import Mathlib

/-!
Shallow embedding of `scripts/ems_priority.py`: the per-tick intersection
signal arbitration engine (EMS preemption with rail forced red, train hold
budgets with graduated slowdowns, anti-starvation road fallback, command
emission via `build_state`, and the per-tick ledger prune).

Vehicle distances, which the source reads as floats from the mover, are
modelled as exact rationals; string identifiers stay strings.  The per-tick
logging (step/trip CSVs) and the mover side effects other than speed
directives carry no decision logic and are not modelled.
-/

/-- Tunable (line 16): EMS must be within this distance (m) to claim its next
TLS. -/
def EMS_DIST : Rat := 75

/-- Tunable (line 17): trains are managed within this distance (m) of a
crossing. -/
def TRAIN_WARN_DIST : Rat := 180

/-- Tunable (line 18): per-(TLS, train) hold budget in ticks while EMS is
preempting. -/
def TRAIN_HOLD_MAX : Nat := 12

/-- Tunable (line 19): forced-state pulse length (s). -/
def PULSE : Rat := 0.8

/-- Association-list lookup with decidable keys: the read side of the Python
dicts (`tls_meta`, `train_hold_left`, the per-tick green maps). -/
def assocGet {α β : Type} [DecidableEq α] : List (α × β) → α → Option β
  | [], _ => none
  | (k, v) :: rest, a => if k = a then some v else assocGet rest a

/-- Result of `analyze_tls` (lines 51-78): controlled-link count and the
road/rail classification of the link indices.  The incoming-edge index map of
the source record is not read by any claim and is omitted here. -/
structure TLSMeta where
  n : Nat
  rail_idxs : List Nat
  road_idxs : List Nat
  is_crossing : Bool
deriving DecidableEq, Inhabited

/-- The source's `inc_edge.startswith("rail_")` test, stated on the
underlying character lists so that concrete instances evaluate. -/
def isRailEdge (e : String) : Bool := "rail_".data.isPrefixOf e.data

/-- `analyze_tls`: one incoming edge id per controlled link, in link order; a
link is in the rail group iff its incoming edge id starts with "rail_", else
it is in the road group; `is_crossing` iff the rail group is non-empty. -/
def analyzeTls (edges : List String) : TLSMeta :=
  let rail := edges.enum.filterMap
    (fun p => if isRailEdge p.2 then some p.1 else none)
  let road := edges.enum.filterMap
    (fun p => if isRailEdge p.2 then none else some p.1)
  { n := edges.length, rail_idxs := rail, road_idxs := road,
    is_crossing := decide (0 < rail.length) }

/-- `build_state` (lines 80-85): start from all-red, write G at each green
index, then write r back at each forced-red index (later writes win, exactly
as in the source's sequential loops). -/
def build_state (n : Nat) (greens : List Nat) (force_red : List Nat) :
    List Char :=
  let s := List.replicate n 'r'
  let s := greens.foldl (fun acc i => acc.set i 'G') s
  force_red.foldl (fun acc i => acc.set i 'r') s

/-- One per-tick vehicle observation: id, type id, and — when the vehicle has
an upcoming TLS — the head of `getNextTLS`: (tls id, approach link index,
distance to the stop line). -/
structure Vehicle where
  vid : String
  vtype : String
  nextTLS : Option (String × Nat × Rat)
deriving DecidableEq, Inhabited

/-- Pass 1 (lines 158-172): every emergency vehicle within `EMS_DIST` of its
next TLS claims green on its approach link there.  The list of (tls, link)
pairs carries both `ems_green` and `blocked_tls` (their keys coincide, since
lines 169-170 populate them together). -/
def emsClaims (vehicles : List Vehicle) : List (String × Nat) :=
  vehicles.filterMap (fun v =>
    if v.vtype = "emergency" then
      match v.nextTLS with
      | some (tls, link, dist) =>
        if dist ≤ EMS_DIST then some (tls, link) else none
      | none => none
    else none)

/-- `ems_green[tls]`: all link indices claimed at one TLS. -/
def emsGreenAt (vehicles : List Vehicle) (tls : String) : List Nat :=
  (emsClaims vehicles).filterMap
    (fun p => if p.1 = tls then some p.2 else none)

/-- `tls_id in blocked_tls`: some EMS claim targets this TLS. -/
def blockedAt (vehicles : List Vehicle) (tls : String) : Bool :=
  decide (emsGreenAt vehicles tls ≠ [])

/-- A speed directive issued to the external mover: `slowDown(target, dur)`
or the release `setSpeed(-1)` back to free running. -/
inductive Directive where
  | slowDown (target dur : Rat)
  | release
deriving DecidableEq, Inhabited

/-- The `train_hold_left` ledger: (tls id, train id) -> remaining hold
ticks. -/
abbrev Ledger := List ((String × String) × Nat)

/-- `train_hold_left.get(key, TRAIN_HOLD_MAX)` (line 194). -/
def ledgerGet (L : Ledger) (k : String × String) : Nat :=
  (assocGet L k).getD TRAIN_HOLD_MAX

/-- `train_hold_left[key] = v` (line 202): dict upsert. -/
def ledgerSet : Ledger → String × String → Nat → Ledger
  | [], k, v => [(k, v)]
  | (k0, v0) :: rest, k, v =>
    if k0 = k then (k, v) :: rest else (k0, v0) :: ledgerSet rest k v

/-- State threaded through the per-train loop of pass 2 (lines 174-211):
the hold ledger, the `train_near` TLS set, the `train_green` requests, and
the speed directives issued this tick (in issue order). -/
structure TrainState where
  ledger : Ledger
  train_near : List String
  train_green : List (String × Nat)
  directives : List (String × Directive)
deriving DecidableEq, Inhabited

/-- Pass 2, one train (lines 177-211): at a crossing TLS within the warn
distance, while the TLS is EMS-blocked the train is slowed against its hold
budget (three distance bands) and its budget decremented; with budget
exhausted, or with no EMS block, it is released and its link is added to the
train-green requests. -/
def trainStep (tm : List (String × TLSMeta)) (blocked : String → Bool)
    (st : TrainState) (v : Vehicle) : TrainState :=
  if v.vtype = "train" then
    match v.nextTLS with
    | none => st
    | some (tls, link, dist) =>
      match assocGet tm tls with
      | none => st
      | some meta =>
        if meta.is_crossing = true then
          let near :=
            if dist < TRAIN_WARN_DIST then st.train_near ++ [tls]
            else st.train_near
          if blocked tls = true ∧ dist < TRAIN_WARN_DIST then
            let left := ledgerGet st.ledger (tls, v.vid)
            if 0 < left then
              let dir : Directive :=
                if dist < 25 then Directive.slowDown 0.1 3.0
                else if dist < 70 then Directive.slowDown 3.0 3.0
                else Directive.slowDown 6.0 3.0
              { ledger := ledgerSet st.ledger (tls, v.vid) (left - 1),
                train_near := near, train_green := st.train_green,
                directives := st.directives ++ [(v.vid, dir)] }
            else
              { ledger := st.ledger, train_near := near,
                train_green := st.train_green ++ [(tls, link)],
                directives := st.directives ++ [(v.vid, Directive.release)] }
          else
            if dist < TRAIN_WARN_DIST then
              { ledger := st.ledger, train_near := near,
                train_green := st.train_green ++ [(tls, link)],
                directives := st.directives ++ [(v.vid, Directive.release)] }
            else
              { st with train_near := near }
        else st
  else st

/-- Pass 2 over all vehicles in observation order, starting from the ledger
carried over from the previous tick. -/
def trainPass (tm : List (String × TLSMeta)) (blocked : String → Bool)
    (vehicles : List Vehicle) (L : Ledger) : TrainState :=
  vehicles.foldl (trainStep tm blocked) ⟨L, [], [], []⟩

/-- `train_green[tls]`: requested link indices at one TLS. -/
def trainGreenAt (tg : List (String × Nat)) (tls : String) : List Nat :=
  tg.filterMap (fun p => if p.1 = tls then some p.2 else none)

/-- Pass 3 (lines 213-221): every crossing with no EMS block and no near
train gets its whole road group assigned; key presence mirrors the source
dict (the assigned group may be empty). -/
def crossingRoadGreen (tm : List (String × TLSMeta))
    (blocked : String → Bool) (near : List String) :
    List (String × List Nat) :=
  tm.filterMap (fun p =>
    if p.2.is_crossing = true ∧ blocked p.1 = false ∧ p.1 ∉ near
    then some (p.1, p.2.road_idxs) else none)

/-- One resolved decision (lines 228-259): final greens, forced reds, the
event tag and source written to the event log, and the emitted state
vector. -/
structure Decision where
  greens : List Nat
  force_red : List Nat
  event_type : String
  source : String
  state : List Char
deriving DecidableEq, Inhabited

/-- Pass 4 for one touched TLS (lines 228-256): accumulate the road-fallback
and train greens; an EMS claim then overrides everything (greens reset to the
EMS links, the whole rail group forced red); tag the policy that fired. -/
def resolve (meta : TLSMeta) (emsG : List Nat) (trainG : List Nat)
    (roadG : Option (List Nat)) : Decision :=
  let g1 : List Nat := match roadG with | some r => r | none => []
  let g2 : List Nat := if trainG ≠ [] then g1 ++ trainG else g1
  if emsG ≠ [] then
    { greens := emsG, force_red := meta.rail_idxs,
      event_type := "ems_preempt", source := "ems",
      state := build_state meta.n emsG meta.rail_idxs }
  else if trainG ≠ [] then
    { greens := g2, force_red := [], event_type := "train_request",
      source := "train", state := build_state meta.n g2 [] }
  else
    match roadG with
    | some _ =>
      { greens := g2, force_red := [], event_type := "road_keep_green",
        source := "controller", state := build_state meta.n g2 [] }
    | none =>
      { greens := g2, force_red := [], event_type := "other",
        source := "controller", state := build_state meta.n g2 [] }

/-- Ledger prune (lines 270-278): drop entries whose train has vanished
(TraCIException) or no longer reports any upcoming TLS; the tracked TLS of
the key is not compared against the train's current next TLS. -/
def prune (L : Ledger) (vehicles : List Vehicle) : Ledger :=
  L.filter (fun e =>
    match vehicles.find? (fun v => decide (v.vid = e.1.2)) with
    | none => false
    | some v => v.nextTLS.isSome)

/-- Everything one tick of the control loop produces (logging aside). -/
structure TickResult where
  emsPairs : List (String × Nat)
  train : TrainState
  roadGreen : List (String × List Nat)
  touched : List String
  decisions : List (String × Decision)
  ledgerAfter : Ledger
deriving DecidableEq, Inhabited

/-- One full arbitration tick (the loop body of `main`, lines 158-278):
EMS claims, the train pass, anti-starvation, resolution of every touched TLS
(the source touched set is a Python set; the list here may repeat a key, with
identical decisions, which no claim can observe through `assocGet`), and the
ledger prune.  Resolution looks the TLS up in `tls_meta` exactly as line 229
does; a touched TLS absent from `tls_meta` would raise a KeyError in the
source and yields no decision entry here. -/
def tick (tm : List (String × TLSMeta)) (vehicles : List Vehicle)
    (L : Ledger) : TickResult :=
  let blocked := blockedAt vehicles
  let ep := emsClaims vehicles
  let ts := trainPass tm blocked vehicles L
  let crg := crossingRoadGreen tm blocked ts.train_near
  let touched := ep.map Prod.fst ++ ts.train_green.map Prod.fst ++
    crg.map Prod.fst
  let decisions := touched.filterMap (fun tls =>
    match assocGet tm tls with
    | some meta =>
      some (tls, resolve meta (emsGreenAt vehicles tls)
        (trainGreenAt ts.train_green tls) (assocGet crg tls))
    | none => none)
  { emsPairs := ep, train := ts, roadGreen := crg, touched := touched,
    decisions := decisions, ledgerAfter := prune ts.ledger vehicles }

/-- Whether the single directive issued this tick was a slowdown (a hold). -/
def isHoldDirective : List (String × Directive) → Bool
  | [(_, Directive.slowDown _ _)] => true
  | _ => false

/-- Consecutive held ticks for one (tls, train) key: iterate the train pass
step of the engine on that train with the given per-tick distances, and count
the prefix of ticks whose issued directive is a slowdown (a hold) before the
first tick that is not a hold. -/
def consecHolds (tm : List (String × TLSMeta)) (blocked : String → Bool)
    (vid tls : String) (link : Nat) : List Rat → Ledger → Nat
  | [], _ => 0
  | d :: ds, L =>
    let st := trainStep tm blocked ⟨L, [], [], []⟩
      ⟨vid, "train", some (tls, link, d)⟩
    if isHoldDirective st.directives then
      consecHolds tm blocked vid tls link ds st.ledger + 1
    else 0

/-- Scenario topology (spec section 8): one crossing "A" whose link 0 is the
rail approach and link 1 the road approach. -/
def scenTM : List (String × TLSMeta) := [("A", analyzeTls ["rail_x", "road_y"])]

/-- Scenario vehicles: one emergency vehicle 50 m from "A" on link 1, and the
train "t1" at distance d from "A" on rail link 0. -/
def scenVehicles (d : Rat) : List Vehicle :=
  [⟨"e1", "emergency", some ("A", 1, 50)⟩, ⟨"t1", "train", some ("A", 0, d)⟩]

/-- Iterated scenario ticks: run the engine once per entry of the distance
list, threading the pruned ledger forward. -/
def scenTicks : List Rat → Ledger → List TickResult
  | [], _ => []
  | d :: ds, L =>
    let r := tick scenTM (scenVehicles d) L
    r :: scenTicks ds r.ledgerAfter

/-- The scenario crossing record: rail link 0, road link 1. -/
def metaA : TLSMeta := analyzeTls ["rail_x", "road_y"]

/-- The graduated slowdown directive of lines 196-201 as a function of the
train's distance: three fixed bands. -/
def slowBand (d : Rat) : Directive :=
  if d < 25 then Directive.slowDown 0.1 3.0
  else if d < 70 then Directive.slowDown 3.0 3.0
  else Directive.slowDown 6.0 3.0

/-- The decision the scenario crossing receives while EMS-blocked: EMS link 1
green, rail link 0 forced red. -/
def emsDec : Decision :=
  { greens := [1], force_red := [0], event_type := "ems_preempt",
    source := "ems", state := ['r', 'G'] }

/-! ### Helper lemmas: `build_state` and association lists -/

theorem foldl_set_length (c : Char) :
    ∀ (l : List Nat) (s : List Char),
      (l.foldl (fun acc j => acc.set j c) s).length = s.length
  | [], _ => rfl
  | j :: l, s => by
    rw [List.foldl_cons, foldl_set_length c l (s.set j c), List.length_set]

theorem foldl_set_getElem (c : Char) :
    ∀ (l : List Nat) (s : List Char) (i : Nat),
      (l.foldl (fun acc j => acc.set j c) s)[i]? =
        if i ∈ l ∧ i < s.length then some c else s[i]?
  | [], s, i => by simp
  | j :: l, s, i => by
    rw [List.foldl_cons, foldl_set_getElem c l (s.set j c) i, List.length_set]
    by_cases hij : i = j
    · subst hij
      by_cases hlen : i < s.length
      · by_cases hmem : i ∈ l <;>
          simp [hmem, hlen, List.getElem?_set]
      · have hnone : s[i]? = none := by
          simp [List.getElem?_eq_none_iff]; omega
        by_cases hmem : i ∈ l <;>
          simp [hmem, hlen, List.getElem?_set, hnone]
    · have hji : j ≠ i := fun h => hij h.symm
      have hset : (s.set j c)[i]? = s[i]? := by
        rw [List.getElem?_set, if_neg hji]
      by_cases hmem : i ∈ l <;>
        simp [hmem, hset, hij, List.mem_cons]

theorem build_state_getElem (n : Nat) (g fr : List Nat) (i : Nat) :
    (build_state n g fr)[i]? =
      if i < n then
        some (if i ∈ fr then 'r' else if i ∈ g then 'G' else 'r')
      else none := by
  unfold build_state
  rw [foldl_set_getElem, foldl_set_length, List.length_replicate,
    foldl_set_getElem, List.length_replicate, List.getElem?_replicate]
  by_cases hn : i < n
  · by_cases hfr : i ∈ fr
    · simp [hfr, hn]
    · by_cases hg : i ∈ g <;> simp [hfr, hg, hn]
  · simp [hn]

theorem assocGet_eq_none {α β : Type} [DecidableEq α] :
    ∀ (l : List (α × β)) (a : α), (∀ p ∈ l, p.1 ≠ a) → assocGet l a = none
  | [], _, _ => rfl
  | (k, v) :: rest, a, h => by
    have hk : k ≠ a := h (k, v) (List.mem_cons_self _ _)
    simp only [assocGet, if_neg hk]
    exact assocGet_eq_none rest a (fun p hp => h p (List.mem_cons_of_mem _ hp))

theorem assocGet_mem {α β : Type} [DecidableEq α] :
    ∀ (l : List (α × β)) (a : α) (b : β),
      assocGet l a = some b → (a, b) ∈ l
  | [], _, _, h => by simp [assocGet] at h
  | (k, v) :: rest, a, b, h => by
    by_cases hk : k = a
    · subst hk
      have hv : v = b := by simpa [assocGet] using h
      subst hv; exact List.mem_cons_self _ _
    · simp only [assocGet, if_neg hk] at h
      exact List.mem_cons_of_mem _ (assocGet_mem rest a b h)

theorem assocGet_isSome_of_mem_keys {α β : Type} [DecidableEq α] :
    ∀ (l : List (α × β)) (a : α), a ∈ l.map Prod.fst →
      ∃ b, assocGet l a = some b
  | [], _, h => by simp at h
  | (k, v) :: rest, a, h => by
    by_cases hk : k = a
    · subst hk; exact ⟨v, by simp [assocGet]⟩
    · have : a ∈ rest.map Prod.fst := by
        simp only [List.map_cons, List.mem_cons] at h
        rcases h with h | h
        · exact absurd h.symm hk
        · exact h
      obtain ⟨b, hb⟩ := assocGet_isSome_of_mem_keys rest a this
      exact ⟨b, by simp [assocGet, hk, hb]⟩

theorem assocGet_mem_keys {α β : Type} [DecidableEq α]
    (l : List (α × β)) (a : α) (b : β) (h : assocGet l a = some b) :
    a ∈ l.map Prod.fst := by
  have := assocGet_mem l a b h
  exact List.mem_map_of_mem Prod.fst this

theorem ledgerGet_ledgerSet_self :
    ∀ (L : Ledger) (k : String × String) (v : Nat),
      ledgerGet (ledgerSet L k v) k = v
  | [], k, v => by simp [ledgerGet, ledgerSet, assocGet]
  | (k0, v0) :: rest, k, v => by
    by_cases hk : k0 = k
    · subst hk; simp [ledgerGet, ledgerSet, assocGet]
    · simp only [ledgerSet, if_neg hk]
      have := ledgerGet_ledgerSet_self rest k v
      simpa [ledgerGet, assocGet, hk] using this

/-! ### Helper lemmas: the per-tick green maps -/

theorem mem_emsGreenAt (vehicles : List Vehicle) (tls : String) (link : Nat) :
    link ∈ emsGreenAt vehicles tls ↔ (tls, link) ∈ emsClaims vehicles := by
  unfold emsGreenAt
  rw [List.mem_filterMap]
  constructor
  · rintro ⟨⟨t, l⟩, hmem, hif⟩
    by_cases ht : t = tls
    · subst ht
      have hl : l = link := by simpa using hif
      subst hl; exact hmem
    · simp [ht] at hif
  · intro h
    exact ⟨(tls, link), h, by simp⟩

theorem mem_trainGreenAt (tg : List (String × Nat)) (tls : String) (l : Nat) :
    l ∈ trainGreenAt tg tls ↔ (tls, l) ∈ tg := by
  unfold trainGreenAt
  rw [List.mem_filterMap]
  constructor
  · rintro ⟨⟨t, x⟩, hmem, hif⟩
    by_cases ht : t = tls
    · subst ht
      have hx : x = l := by simpa using hif
      subst hx; exact hmem
    · simp [ht] at hif
  · intro h
    exact ⟨(tls, l), h, by simp⟩

theorem trainGreenAt_ne_nil_iff (tg : List (String × Nat)) (tls : String) :
    trainGreenAt tg tls ≠ [] ↔ ∃ l, (tls, l) ∈ tg := by
  constructor
  · intro h
    obtain ⟨l, hl⟩ := List.exists_mem_of_ne_nil _ h
    exact ⟨l, (mem_trainGreenAt tg tls l).mp hl⟩
  · rintro ⟨l, hl⟩
    intro hnil
    have := (mem_trainGreenAt tg tls l).mpr hl
    rw [hnil] at this
    exact List.not_mem_nil l this

theorem emsGreenAt_of_claim (vehicles : List Vehicle) (v : Vehicle)
    (tls : String) (link : Nat) (d : Rat) (hv : v ∈ vehicles)
    (ht : v.vtype = "emergency") (hn : v.nextTLS = some (tls, link, d))
    (hd : d ≤ EMS_DIST) : link ∈ emsGreenAt vehicles tls := by
  rw [mem_emsGreenAt]
  unfold emsClaims
  rw [List.mem_filterMap]
  exact ⟨v, hv, by rw [ht, hn]; simp [hd]⟩

/-! ### Helper lemmas: `crossingRoadGreen` lookups -/

theorem crg_get_none_of_near (tm : List (String × TLSMeta))
    (blocked : String → Bool) (near : List String) (tls : String)
    (h : tls ∈ near) :
    assocGet (crossingRoadGreen tm blocked near) tls = none := by
  apply assocGet_eq_none
  intro p hp
  unfold crossingRoadGreen at hp
  rw [List.mem_filterMap] at hp
  obtain ⟨⟨k, m⟩, _, hif⟩ := hp
  by_cases hc : m.is_crossing = true ∧ blocked k = false ∧ k ∉ near
  · rw [if_pos hc] at hif
    cases hif
    intro heq
    dsimp only at heq
    exact hc.2.2 (by rw [heq]; exact h)
  · rw [if_neg hc] at hif
    cases hif

theorem crg_get_none_of_blocked (tm : List (String × TLSMeta))
    (blocked : String → Bool) (near : List String) (tls : String)
    (h : blocked tls = true) :
    assocGet (crossingRoadGreen tm blocked near) tls = none := by
  apply assocGet_eq_none
  intro p hp
  unfold crossingRoadGreen at hp
  rw [List.mem_filterMap] at hp
  obtain ⟨⟨k, m⟩, _, hif⟩ := hp
  by_cases hc : m.is_crossing = true ∧ blocked k = false ∧ k ∉ near
  · rw [if_pos hc] at hif
    cases hif
    intro heq
    dsimp only at heq
    rw [heq, h] at hc
    exact Bool.noConfusion hc.2.1
  · rw [if_neg hc] at hif
    cases hif

theorem crg_get_some (tm : List (String × TLSMeta)) (blocked : String → Bool)
    (near : List String) (tls : String) (meta : TLSMeta)
    (hmeta : assocGet tm tls = some meta) (hc : meta.is_crossing = true)
    (hb : blocked tls = false) (hn : tls ∉ near) :
    assocGet (crossingRoadGreen tm blocked near) tls =
      some meta.road_idxs := by
  induction tm with
  | nil => simp [assocGet] at hmeta
  | cons p rest ih =>
    obtain ⟨k, m⟩ := p
    by_cases hk : k = tls
    · have hm : m = meta := by
        subst hk
        simpa [assocGet] using hmeta
      have hcond : ((k, m).2.is_crossing = true ∧
          blocked (k, m).1 = false ∧ (k, m).1 ∉ near) := by
        dsimp only
        rw [hk, hm]
        exact ⟨hc, hb, hn⟩
      unfold crossingRoadGreen
      rw [List.filterMap_cons, if_pos hcond]
      simp [assocGet, hk, hm]
    · have hrest : assocGet rest tls = some meta := by
        simpa [assocGet, hk] using hmeta
      unfold crossingRoadGreen
      rw [List.filterMap_cons]
      by_cases hcond : m.is_crossing = true ∧ blocked k = false ∧ k ∉ near
      · rw [if_pos hcond]
        simp only [assocGet, if_neg hk]
        exact ih hrest
      · rw [if_neg hcond]
        exact ih hrest

/-! ### Helper lemma: resolution entries of a tick -/

theorem assocGet_touched_decisions (tm : List (String × TLSMeta))
    (F : String → TLSMeta → Decision) :
    ∀ (T : List String) (tls : String) (meta : TLSMeta), tls ∈ T →
      assocGet tm tls = some meta →
      assocGet (T.filterMap (fun t =>
        match assocGet tm t with
        | some m => some (t, F t m)
        | none => none)) tls = some (F tls meta)
  | [], tls, meta, hmem, _ => by simp at hmem
  | t :: T, tls, meta, hmem, hmeta => by
    by_cases ht : t = tls
    · subst ht
      rw [List.filterMap_cons, hmeta]
      simp [assocGet]
    · rw [List.mem_cons] at hmem
      rcases hmem with heq | hmem
    




      · exact absurd heq.symm ht
      · rw [List.filterMap_cons]
        cases hmt : assocGet tm t with
        | none =>
          exact assocGet_touched_decisions tm F T tls meta hmem hmeta
        | some m =>
          simp only [assocGet, if_neg ht]
          exact assocGet_touched_decisions tm F T tls meta hmem hmeta

/-! ### Helper lemmas: the train pass -/

theorem trainStep_char (tm : List (String × TLSMeta))
    (blocked : String → Bool) (st : TrainState) (v : Vehicle) :
    trainStep tm blocked st v = st ∨
    ∃ tls link dist meta,
      v.vtype = "train" ∧ v.nextTLS = some (tls, link, dist) ∧
      assocGet tm tls = some meta ∧ meta.is_crossing = true ∧
      ((dist < TRAIN_WARN_DIST ∧ blocked tls = true ∧
          0 < ledgerGet st.ledger (tls, v.vid) ∧
          trainStep tm blocked st v =
            { ledger := ledgerSet st.ledger (tls, v.vid)
                (ledgerGet st.ledger (tls, v.vid) - 1),
              train_near := st.train_near ++ [tls],
              train_green := st.train_green,
              directives := st.directives ++ [(v.vid, slowBand dist)] }) ∨
        (dist < TRAIN_WARN_DIST ∧ blocked tls = true ∧
          ledgerGet st.ledger (tls, v.vid) = 0 ∧
          trainStep tm blocked st v =
            { ledger := st.ledger,
              train_near := st.train_near ++ [tls],
              train_green := st.train_green ++ [(tls, link)],
              directives := st.directives ++ [(v.vid, Directive.release)] }) ∨
        (dist < TRAIN_WARN_DIST ∧ blocked tls = false ∧
          trainStep tm blocked st v =
            { ledger := st.ledger,
              train_near := st.train_near ++ [tls],
              train_green := st.train_green ++ [(tls, link)],
              directives := st.directives ++ [(v.vid, Directive.release)] }) ∨
        (¬ dist < TRAIN_WARN_DIST ∧ trainStep tm blocked st v = st)) := by
  by_cases hv : v.vtype = "train"
  · cases hnx : v.nextTLS with
    | none => exact Or.inl (by unfold trainStep; rw [if_pos hv, hnx])
    | some trip =>
      obtain ⟨tls, link, dist⟩ := trip
      cases hmt : assocGet tm tls with
      | none =>
        refine Or.inl ?_
        unfold trainStep
        rw [if_pos hv, hnx]
        simp only [hmt]
      | some meta =>
        by_cases hc : meta.is_crossing = true
        · right
          refine ⟨tls, link, dist, meta, hv, rfl, hmt, hc, ?_⟩
          by_cases hw : dist < TRAIN_WARN_DIST
          · by_cases hb : blocked tls = true
            · by_cases hl : 0 < ledgerGet st.ledger (tls, v.vid)
              · left
                refine ⟨hw, hb, hl, ?_⟩
                unfold trainStep
                rw [if_pos hv, hnx]
                simp only [hmt]
                simp only [if_pos hc, if_pos hw, if_pos (And.intro hb hw),
                  if_pos hl]
                simp [slowBand]
              · right; left
                have hz : ledgerGet st.ledger (tls, v.vid) = 0 := by omega
                refine ⟨hw, hb, hz, ?_⟩
                unfold trainStep
                rw [if_pos hv, hnx]
                simp only [hmt]
                simp only [if_pos hc, if_pos hw, if_pos (And.intro hb hw),
                  if_neg hl]
            · right; right; left
              have hbf : blocked tls = false := by
                cases hbv : blocked tls
                · rfl
                · exact absurd hbv hb
              have hcond : ¬ (blocked tls = true ∧ dist < TRAIN_WARN_DIST) :=
                fun hh => hb hh.1
              refine ⟨hw, hbf, ?_⟩
              unfold trainStep
              rw [if_pos hv, hnx]
              simp only [hmt]
              simp only [if_pos hc, if_pos hw, if_neg hcond]
          · right; right; right
            have hcond : ¬ (blocked tls = true ∧ dist < TRAIN_WARN_DIST) :=
              fun hh => hw hh.2
            refine ⟨hw, ?_⟩
            unfold trainStep
            rw [if_pos hv, hnx]
            simp only [hmt]
            simp only [if_pos hc, if_neg hw, if_neg hcond]
        · refine Or.inl ?_
          unfold trainStep
          rw [if_pos hv, hnx]
          simp only [hmt]
          rw [if_neg hc]
  · exact Or.inl (by unfold trainStep; rw [if_neg hv])

theorem trainStep_near_mono (tm : List (String × TLSMeta))
    (blocked : String → Bool) (st : TrainState) (v : Vehicle) (t : String)
    (h : t ∈ st.train_near) : t ∈ (trainStep tm blocked st v).train_near := by
  rcases trainStep_char tm blocked st v with heq |
    ⟨tls, link, dist, meta, _, _, _, _, hcase⟩
  · rw [heq]; exact h
  · rcases hcase with ⟨_, _, _, heq⟩ | ⟨_, _, _, heq⟩ | ⟨_, _, heq⟩ | ⟨_, heq⟩ <;>
      rw [heq] <;>
      first
        | exact List.mem_append_left _ h
        | exact h

theorem trainStep_green_origin (tm : List (String × TLSMeta))
    (blocked : String → Bool) (st : TrainState) (v : Vehicle)
    (p : String × Nat) (h : p ∈ (trainStep tm blocked st v).train_green) :
    p ∈ st.train_green ∨
      (v.vtype = "train" ∧ ∃ d meta, v.nextTLS = some (p.1, p.2, d) ∧
        assocGet tm p.1 = some meta ∧ meta.is_crossing = true ∧
        d < TRAIN_WARN_DIST ∧
        p.1 ∈ (trainStep tm blocked st v).train_near) := by
  rcases trainStep_char tm blocked st v with heq |
    ⟨tls, link, dist, meta, hv, hnx, hmt, hc, hcase⟩
  · rw [heq] at h; exact Or.inl h
  · rcases hcase with ⟨hw, hb, hl, heq⟩ | ⟨hw, hb, hz, heq⟩ |
      ⟨hw, hb, heq⟩ | ⟨hw, heq⟩
    · rw [heq] at h; exact Or.inl h
    · rw [heq] at h
      have h' : p ∈ st.train_green ++ [(tls, link)] := h
      rw [List.mem_append] at h'
      rcases h' with h' | h'
      · exact Or.inl h'
      · have hp : p = (tls, link) := by simpa using h'
        subst hp
        refine Or.inr ⟨hv, dist, meta, hnx, hmt, hc, hw, ?_⟩
        rw [heq]
        exact List.mem_append_right _ (by simp)
    · rw [heq] at h
      have h' : p ∈ st.train_green ++ [(tls, link)] := h
      rw [List.mem_append] at h'
      rcases h' with h' | h'
      · exact Or.inl h'
      · have hp : p = (tls, link) := by simpa using h'
        subst hp
        refine Or.inr ⟨hv, dist, meta, hnx, hmt, hc, hw, ?_⟩
        rw [heq]
        exact List.mem_append_right _ (by simp)
    · rw [heq] at h; exact Or.inl h

theorem trainStep_near_origin (tm : List (String × TLSMeta))
    (blocked : String → Bool) (st : TrainState) (v : Vehicle) (t : String)
    (h : t ∈ (trainStep tm blocked st v).train_near) :
    t ∈ st.train_near ∨
      (v.vtype = "train" ∧ ∃ link d meta, v.nextTLS = some (t, link, d) ∧
        assocGet tm t = some meta ∧ meta.is_crossing = true ∧
        d < TRAIN_WARN_DIST) := by
  rcases trainStep_char tm blocked st v with heq |
    ⟨tls, link, dist, meta, hv, hnx, hmt, hc, hcase⟩
  · rw [heq] at h; exact Or.inl h
  · rcases hcase with ⟨hw, hb, hl, heq⟩ | ⟨hw, hb, hz, heq⟩ |
      ⟨hw, hb, heq⟩ | ⟨hw, heq⟩
    · rw [heq] at h
      have h' : t ∈ st.train_near ++ [tls] := h
      rw [List.mem_append] at h'
      rcases h' with h' | h'
      · exact Or.inl h'
      · have ht : t = tls := by simpa using h'
        subst ht
        exact Or.inr ⟨hv, link, dist, meta, hnx, hmt, hc, hw⟩
    · rw [heq] at h
      have h' : t ∈ st.train_near ++ [tls] := h
      rw [List.mem_append] at h'
      rcases h' with h' | h'
      · exact Or.inl h'
      · have ht : t = tls := by simpa using h'
        subst ht
        exact Or.inr ⟨hv, link, dist, meta, hnx, hmt, hc, hw⟩
    · rw [heq] at h
      have h' : t ∈ st.train_near ++ [tls] := h
      rw [List.mem_append] at h'
      rcases h' with h' | h'
      · exact Or.inl h'
      · have ht : t = tls := by simpa using h'
        subst ht
        exact Or.inr ⟨hv, link, dist, meta, hnx, hmt, hc, hw⟩
    · rw [heq] at h; exact Or.inl h

theorem foldl_trainStep_near_mono (tm : List (String × TLSMeta))
    (blocked : String → Bool) :
    ∀ (vs : List Vehicle) (st : TrainState) (t : String),
      t ∈ st.train_near →
      t ∈ (vs.foldl (trainStep tm blocked) st).train_near
  | [], _, _, h => h
  | v :: vs, st, t, h => by
    rw [List.foldl_cons]
    exact foldl_trainStep_near_mono tm blocked vs (trainStep tm blocked st v) t
      (trainStep_near_mono tm blocked st v t h)

theorem foldl_trainStep_green_near (tm : List (String × TLSMeta))
    (blocked : String → Bool) :
    ∀ (vs : List Vehicle) (st : TrainState),
      (∀ q ∈ st.train_green, q.1 ∈ st.train_near) →
      ∀ p ∈ (vs.foldl (trainStep tm blocked) st).train_green,
        p.1 ∈ (vs.foldl (trainStep tm blocked) st).train_near
  | [], st, hinv, p, hp => hinv p hp
  | v :: vs, st, hinv, p, hp => by
    rw [List.foldl_cons] at hp ⊢
    refine foldl_trainStep_green_near tm blocked vs (trainStep tm blocked st v)
      ?_ p hp
    intro q hq
    rcases trainStep_green_origin tm blocked st v q hq with hq' | ⟨_, _, _, _, _, _, _, hnear⟩
    · exact trainStep_near_mono tm blocked st v q.1 (hinv q hq')
    · exact hnear

theorem foldl_trainStep_green_origin (tm : List (String × TLSMeta))
    (blocked : String → Bool) :
    ∀ (vs : List Vehicle) (st : TrainState) (p : String × Nat),
      p ∈ (vs.foldl (trainStep tm blocked) st).train_green →
      p ∈ st.train_green ∨
        ∃ v ∈ vs, v.vtype = "train" ∧ ∃ d meta,
          v.nextTLS = some (p.1, p.2, d) ∧ assocGet tm p.1 = some meta ∧
          meta.is_crossing = true ∧ d < TRAIN_WARN_DIST
  | [], _, _, h => Or.inl h
  | v :: vs, st, p, h => by
    rw [List.foldl_cons] at h
    rcases foldl_trainStep_green_origin tm blocked vs
      (trainStep tm blocked st v) p h with h' | ⟨w, hw, hrest⟩
    · rcases trainStep_green_origin tm blocked st v p h' with h'' |
        ⟨hv, d, meta, hnx, hmt, hc, hd, _⟩
      · exact Or.inl h''
      · exact Or.inr ⟨v, List.mem_cons_self _ _, hv, d, meta, hnx, hmt, hc, hd⟩
    · exact Or.inr ⟨w, List.mem_cons_of_mem _ hw, hrest⟩

theorem foldl_trainStep_near_origin (tm : List (String × TLSMeta))
    (blocked : String → Bool) :
    ∀ (vs : List Vehicle) (st : TrainState) (t : String),
      t ∈ (vs.foldl (trainStep tm blocked) st).train_near →
      t ∈ st.train_near ∨
        ∃ v ∈ vs, v.vtype = "train" ∧ ∃ link d meta,
          v.nextTLS = some (t, link, d) ∧ assocGet tm t = some meta ∧
          meta.is_crossing = true ∧ d < TRAIN_WARN_DIST
  | [], _, _, h => Or.inl h
  | v :: vs, st, t, h => by
    rw [List.foldl_cons] at h
    rcases foldl_trainStep_near_origin tm blocked vs
      (trainStep tm blocked st v) t h with h' | ⟨w, hw, hrest⟩
    · rcases trainStep_near_origin tm blocked st v t h' with h'' | ⟨hv, hrest'⟩
      · exact Or.inl h''
      · exact Or.inr ⟨v, List.mem_cons_self _ _, hv, hrest'⟩
    · exact Or.inr ⟨w, List.mem_cons_of_mem _ hw, hrest⟩

theorem trainPass_green_near (tm : List (String × TLSMeta))
    (blocked : String → Bool) (vehicles : List Vehicle) (L : Ledger) :
    ∀ p ∈ (trainPass tm blocked vehicles L).train_green,
      p.1 ∈ (trainPass tm blocked vehicles L).train_near := by
  intro p hp
  exact foldl_trainStep_green_near tm blocked vehicles ⟨L, [], [], []⟩
    (by intro q hq; simp at hq) p hp

theorem trainPass_green_origin (tm : List (String × TLSMeta))
    (blocked : String → Bool) (vehicles : List Vehicle) (L : Ledger)
    (p : String × Nat) (hp : p ∈ (trainPass tm blocked vehicles L).train_green) :
    ∃ v ∈ vehicles, v.vtype = "train" ∧ ∃ d meta,
      v.nextTLS = some (p.1, p.2, d) ∧ assocGet tm p.1 = some meta ∧
      meta.is_crossing = true ∧ d < TRAIN_WARN_DIST := by
  rcases foldl_trainStep_green_origin tm blocked vehicles ⟨L, [], [], []⟩ p hp
    with h | h
  · simp at h
  · exact h

theorem trainPass_near_origin (tm : List (String × TLSMeta))
    (blocked : String → Bool) (vehicles : List Vehicle) (L : Ledger)
    (t : String) (ht : t ∈ (trainPass tm blocked vehicles L).train_near) :
    ∃ v ∈ vehicles, v.vtype = "train" ∧ ∃ link d meta,
      v.nextTLS = some (t, link, d) ∧ assocGet tm t = some meta ∧
      meta.is_crossing = true ∧ d < TRAIN_WARN_DIST := by
  rcases foldl_trainStep_near_origin tm blocked vehicles ⟨L, [], [], []⟩ t ht
    with h | h
  · simp at h
  · exact h

/-! ### Helper lemmas: tick resolution -/

theorem tick_decisions_get (tm : List (String × TLSMeta))
    (vehicles : List Vehicle) (L : Ledger) (tls : String) (meta : TLSMeta)
    (hmeta : assocGet tm tls = some meta)
    (htouched : tls ∈ (tick tm vehicles L).touched) :
    assocGet (tick tm vehicles L).decisions tls =
      some (resolve meta (emsGreenAt vehicles tls)
        (trainGreenAt (tick tm vehicles L).train.train_green tls)
        (assocGet (tick tm vehicles L).roadGreen tls)) :=
  assocGet_touched_decisions tm
    (fun t m => resolve m (emsGreenAt vehicles t)
      (trainGreenAt (trainPass tm (blockedAt vehicles) vehicles L).train_green t)
      (assocGet (crossingRoadGreen tm (blockedAt vehicles)
        (trainPass tm (blockedAt vehicles) vehicles L).train_near) t))
    (tick tm vehicles L).touched tls meta htouched hmeta

theorem mem_touched_of_ems (tm : List (String × TLSMeta))
    (vehicles : List Vehicle) (L : Ledger) (tls : String)
    (h : emsGreenAt vehicles tls ≠ []) :
    tls ∈ (tick tm vehicles L).touched := by
  obtain ⟨l, hl⟩ := List.exists_mem_of_ne_nil _ h
  have hclaim : (tls, l) ∈ emsClaims vehicles :=
    (mem_emsGreenAt vehicles tls l).mp hl
  have : tls ∈ (emsClaims vehicles).map Prod.fst :=
    List.mem_map_of_mem Prod.fst hclaim
  exact List.mem_append_left _ (List.mem_append_left _ this)

theorem mem_touched_of_train (tm : List (String × TLSMeta))
    (vehicles : List Vehicle) (L : Ledger) (tls : String) (l : Nat)
    (h : (tls, l) ∈ (tick tm vehicles L).train.train_green) :
    tls ∈ (tick tm vehicles L).touched := by
  have : tls ∈ (tick tm vehicles L).train.train_green.map Prod.fst :=
    List.mem_map_of_mem Prod.fst h
  exact List.mem_append_left _ (List.mem_append_right _ this)

theorem mem_touched_of_road (tm : List (String × TLSMeta))
    (vehicles : List Vehicle) (L : Ledger) (tls : String) (r : List Nat)
    (h : assocGet (tick tm vehicles L).roadGreen tls = some r) :
    tls ∈ (tick tm vehicles L).touched := by
  have : tls ∈ (tick tm vehicles L).roadGreen.map Prod.fst :=
    assocGet_mem_keys _ tls r h
  exact List.mem_append_right _ this

theorem mem_decisions_inv (tm : List (String × TLSMeta))
    (vehicles : List Vehicle) (L : Ledger) (p : String × Decision)
    (h : p ∈ (tick tm vehicles L).decisions) :
    ∃ meta, p.1 ∈ (tick tm vehicles L).touched ∧
      assocGet tm p.1 = some meta ∧
      p.2 = resolve meta (emsGreenAt vehicles p.1)
        (trainGreenAt (tick tm vehicles L).train.train_green p.1)
        (assocGet (tick tm vehicles L).roadGreen p.1) := by
  have h' : p ∈ (tick tm vehicles L).touched.filterMap (fun t =>
      match assocGet tm t with
      | some m => some (t, resolve m (emsGreenAt vehicles t)
          (trainGreenAt (tick tm vehicles L).train.train_green t)
          (assocGet (tick tm vehicles L).roadGreen t))
      | none => none) := h
  rw [List.mem_filterMap] at h'
  obtain ⟨t, ht, hf⟩ := h'
  cases hmt : assocGet tm t with
  | none => rw [hmt] at hf; cases hf
  | some m =>
    rw [hmt] at hf
    have hp : (t, resolve m (emsGreenAt vehicles t)
        (trainGreenAt (tick tm vehicles L).train.train_green t)
        (assocGet (tick tm vehicles L).roadGreen t)) = p := by
      simpa using hf
    subst hp
    exact ⟨m, ht, hmt, rfl⟩

theorem mem_touched_cases (tm : List (String × TLSMeta))
    (vehicles : List Vehicle) (L : Ledger) (tls : String)
    (h : tls ∈ (tick tm vehicles L).touched) :
    emsGreenAt vehicles tls ≠ [] ∨
    trainGreenAt (tick tm vehicles L).train.train_green tls ≠ [] ∨
    ∃ r, assocGet (tick tm vehicles L).roadGreen tls = some r := by
  have h' : tls ∈ (emsClaims vehicles).map Prod.fst ++
      ((tick tm vehicles L).train.train_green.map Prod.fst ++
        (tick tm vehicles L).roadGreen.map Prod.fst) := by
    have h2 : tls ∈ ((emsClaims vehicles).map Prod.fst ++
        (tick tm vehicles L).train.train_green.map Prod.fst) ++
        (tick tm vehicles L).roadGreen.map Prod.fst := h
    rw [List.append_assoc] at h2
    exact h2
  rw [List.mem_append, List.mem_append] at h'
  rcases h' with h' | h' | h'
  · left
    rw [List.mem_map] at h'
    obtain ⟨⟨t, l⟩, hmem, ht⟩ := h'
    dsimp only at ht
    subst ht
    intro hnil
    have := (mem_emsGreenAt vehicles t l).mpr hmem
    rw [hnil] at this
    exact List.not_mem_nil l this
  · right; left
    rw [List.mem_map] at h'
    obtain ⟨⟨t, l⟩, hmem, ht⟩ := h'
    dsimp only at ht
    subst ht
    intro hnil
    have := (mem_trainGreenAt _ t l).mpr hmem
    rw [hnil] at this
    exact List.not_mem_nil l this
  · right; right
    exact assocGet_isSome_of_mem_keys _ tls h'

theorem resolve_ems (meta : TLSMeta) (emsG trainG : List Nat)
    (roadG : Option (List Nat)) (h : emsG ≠ []) :
    resolve meta emsG trainG roadG =
      { greens := emsG, force_red := meta.rail_idxs,
        event_type := "ems_preempt", source := "ems",
        state := build_state meta.n emsG meta.rail_idxs } := by
  unfold resolve
  rw [if_pos h]

theorem resolve_train_none (meta : TLSMeta) (trainG : List Nat)
    (h : trainG ≠ []) :
    resolve meta [] trainG none =
      { greens := trainG, force_red := [], event_type := "train_request",
        source := "train", state := build_state meta.n trainG [] } := by
  unfold resolve
  rw [if_neg (by simp), if_pos h]
  simp [h]

theorem resolve_road (meta : TLSMeta) (r : List Nat) :
    resolve meta [] [] (some r) =
      { greens := r, force_red := [], event_type := "road_keep_green",
        source := "controller", state := build_state meta.n r [] } := by
  unfold resolve
  simp

theorem crg_keys_sub (tm : List (String × TLSMeta)) (blocked : String → Bool)
    (near : List String) :
    ∀ p ∈ crossingRoadGreen tm blocked near, p.1 ∈ tm.map Prod.fst := by
  intro p hp
  unfold crossingRoadGreen at hp
  rw [List.mem_filterMap] at hp
  obtain ⟨⟨k, m⟩, hmem, hif⟩ := hp
  by_cases hc : m.is_crossing = true ∧ blocked k = false ∧ k ∉ near
  · rw [if_pos hc] at hif
    cases hif
    exact List.mem_map_of_mem Prod.fst hmem
  · rw [if_neg hc] at hif
    cases hif

theorem crg_get_some_inv (tm : List (String × TLSMeta))
    (blocked : String → Bool) (near : List String) (tls : String)
    (meta : TLSMeta) (r : List Nat)
    (hnodup : (tm.map Prod.fst).Nodup)
    (hmeta : assocGet tm tls = some meta)
    (h : assocGet (crossingRoadGreen tm blocked near) tls = some r) :
    r = meta.road_idxs := by
  induction tm with
  | nil => simp [assocGet] at hmeta
  | cons p rest ih =>
    obtain ⟨k, m⟩ := p
    by_cases hk : k = tls
    · have hm : m = meta := by
        subst hk
        simpa [assocGet] using hmeta
      unfold crossingRoadGreen at h
      rw [List.filterMap_cons] at h
      by_cases hcond : m.is_crossing = true ∧ blocked k = false ∧ k ∉ near
      · rw [if_pos hcond] at h
        have hval : m.road_idxs = r := by
          subst hk
          simpa [assocGet] using h
        rw [← hval, hm]
      · rw [if_neg hcond] at h
        exfalso
        have hknotin : k ∉ rest.map Prod.fst := by
          have := hnodup
          rw [List.map_cons, List.nodup_cons] at this
          exact this.1
        have hnone : assocGet (crossingRoadGreen rest blocked near) tls =
            none := by
          apply assocGet_eq_none
          intro q hq
          have := crg_keys_sub rest blocked near q hq
          intro hq1
          rw [hq1, ← hk] at this
          exact hknotin this
        have h2 : assocGet (crossingRoadGreen rest blocked near) tls =
            some r := h
        rw [hnone] at h2
        cases h2
    · have hrest : assocGet rest tls = some meta := by
        simpa [assocGet, hk] using hmeta
      have hnodup' : (rest.map Prod.fst).Nodup := by
        have := hnodup
        rw [List.map_cons, List.nodup_cons] at this
        exact this.2
      unfold crossingRoadGreen at h
      rw [List.filterMap_cons] at h
      by_cases hcond : m.is_crossing = true ∧ blocked k = false ∧ k ∉ near
      · rw [if_pos hcond] at h
        have h' : assocGet (crossingRoadGreen rest blocked near) tls =
            some r := by
          simpa [assocGet, hk] using h
        exact ih hnodup' hrest h'
      · rw [if_neg hcond] at h
        exact ih hnodup' hrest h

/-! ### Claim theorems -/

/-- C1: for every tick and every crossing TLS whose signal state is written
that tick, the emitted state vector never has a road-group link and a
rail-group link simultaneously green: the EMS branch forces the whole rail
group red, the train branch greens only rail links (trains approach on rail
links) with roads defaulting to red, and the fallback branch greens only road
links, the train and fallback cases being mutually exclusive through
`train_near`. -/
theorem C1_exclusivity_invariant
    (tm : List (String × TLSMeta)) (vehicles : List Vehicle) (L : Ledger)
    (tls : String) (meta : TLSMeta) (dec : Decision)
    (hnodup : (tm.map Prod.fst).Nodup)
    (hmeta : assocGet tm tls = some meta)
    (hcross : meta.is_crossing = true)
    (hdisj : ∀ i, i ∈ meta.rail_idxs → i ∉ meta.road_idxs)
    (htrain : ∀ v ∈ vehicles, v.vtype = "train" →
      ∀ l d, v.nextTLS = some (tls, l, d) → l ∈ meta.rail_idxs)
    (hdec : assocGet (tick tm vehicles L).decisions tls = some dec) :
    ¬ ((∃ i ∈ meta.road_idxs, dec.state[i]? = some 'G') ∧
       (∃ j ∈ meta.rail_idxs, dec.state[j]? = some 'G')) := by
  rintro ⟨⟨i, hi, hiG⟩, ⟨j, hj, hjG⟩⟩
  have hmem := assocGet_mem _ _ _ hdec
  obtain ⟨meta', htch0, hmeta', hdecp⟩ := mem_decisions_inv tm vehicles L
    (tls, dec) hmem
  have htch : tls ∈ (tick tm vehicles L).touched := htch0
  have hmm : meta' = meta := by
    have : some meta = some meta' := by rw [← hmeta, ← hmeta']
    exact (Option.some.inj this).symm
  subst hmm
  have hdec' : dec = resolve meta' (emsGreenAt vehicles tls)
      (trainGreenAt (tick tm vehicles L).train.train_green tls)
      (assocGet (tick tm vehicles L).roadGreen tls) := hdecp
  by_cases hE : emsGreenAt vehicles tls ≠ []
  · rw [resolve_ems _ _ _ _ hE] at hdec'
    have hst : dec.state = build_state meta'.n (emsGreenAt vehicles tls)
        meta'.rail_idxs := by rw [hdec']
    rw [hst, build_state_getElem] at hjG
    by_cases hjn : j < meta'.n
    · rw [if_pos hjn, if_pos hj] at hjG
      simp at hjG
    · rw [if_neg hjn] at hjG
      cases hjG
  · push_neg at hE
    by_cases hT : trainGreenAt (tick tm vehicles L).train.train_green tls ≠ []
    · obtain ⟨l, hl⟩ := List.exists_mem_of_ne_nil _ hT
      have hlmem := (mem_trainGreenAt _ tls l).mp hl
      have hnear : tls ∈ (trainPass tm (blockedAt vehicles) vehicles
          L).train_near :=
        trainPass_green_near tm (blockedAt vehicles) vehicles L (tls, l) hlmem
      have hroadG : assocGet (tick tm vehicles L).roadGreen tls = none :=
        crg_get_none_of_near tm (blockedAt vehicles) _ tls hnear
      rw [hE, hroadG, resolve_train_none _ _ hT] at hdec'
      have hst : dec.state = build_state meta'.n
          (trainGreenAt (tick tm vehicles L).train.train_green tls) [] := by
        rw [hdec']
      rw [hst, build_state_getElem] at hiG
      by_cases hin : i < meta'.n
      · rw [if_pos hin] at hiG
        simp only [List.not_mem_nil, if_false] at hiG
        by_cases hit : i ∈ trainGreenAt
            (tick tm vehicles L).train.train_green tls
        · have himem := (mem_trainGreenAt _ tls i).mp hit
          obtain ⟨v, hv, hvt, d, mv, hnx, hmt, _, _⟩ :=
            trainPass_green_origin tm (blockedAt vehicles) vehicles L
              (tls, i) himem
          have hirail : i ∈ meta'.rail_idxs := htrain v hv hvt i d hnx
          exact hdisj i hirail hi
        · rw [if_neg hit] at hiG
          simp at hiG
      · rw [if_neg hin] at hiG
        cases hiG
    · push_neg at hT
      rcases mem_touched_cases tm vehicles L tls htch with h1 | h2 | ⟨r, hr⟩
      · exact h1 hE
      · exact h2 hT
      · have hreq : r = meta'.road_idxs :=
          crg_get_some_inv tm (blockedAt vehicles) _ tls meta' r hnodup
            hmeta hr
      




        rw [hE, hT, hr, resolve_road] at hdec'
        have hst : dec.state = build_state meta'.n r [] := by rw [hdec']
        rw [hst, build_state_getElem] at hjG
        by_cases hjn : j < meta'.n
        · rw [if_pos hjn] at hjG
          simp only [List.not_mem_nil, if_false] at hjG
          by_cases hjr : j ∈ r
          · rw [hreq] at hjr
            exact hdisj j hj hjr
          · rw [if_neg hjr] at hjG
            simp at hjG
        · rw [if_neg hjn] at hjG
          cases hjG

/-- C1 witness: the scenario crossing with one EMS claim and one train, where
the emitted decision is the EMS preemption. -/
theorem C1_exclusivity_invariant_witness :
    (List.map Prod.fst scenTM).Nodup ∧
    assocGet scenTM "A" = some metaA ∧
    metaA.is_crossing = true ∧
    (∀ i, i ∈ metaA.rail_idxs → i ∉ metaA.road_idxs) ∧
    (∀ v ∈ scenVehicles 100, v.vtype = "train" →
      ∀ l d, v.nextTLS = some ("A", l, d) → l ∈ metaA.rail_idxs) ∧
    assocGet (tick scenTM (scenVehicles 100) []).decisions "A" =
      some emsDec ∧
    ¬ ((∃ i ∈ metaA.road_idxs, emsDec.state[i]? = some 'G') ∧
       (∃ j ∈ metaA.rail_idxs, emsDec.state[j]? = some 'G')) := by
  have htr : ∀ v ∈ scenVehicles 100, v.vtype = "train" →
      ∀ l d, v.nextTLS = some ("A", l, d) → l ∈ metaA.rail_idxs := by
    intro v hv htype l d hnx
    simp only [scenVehicles, List.mem_cons, List.not_mem_nil, or_false]
      at hv
    rcases hv with hv | hv
    · subst hv
      exact absurd htype (by decide)
    · subst hv
      have hl : l = 0 := by
        have := Option.some.inj hnx
        exact (Prod.mk.inj (Prod.mk.inj this).2).1.symm
      subst hl
      decide
  refine ⟨by decide, by decide, by decide, by decide, htr, by decide, ?_⟩
  exact C1_exclusivity_invariant scenTM (scenVehicles 100) [] "A" metaA
    emsDec (by decide) (by decide) (by decide) (by decide) htr (by decide)

theorem resolve_event_ems (meta : TLSMeta) (emsG trainG : List Nat)
    (roadG : Option (List Nat)) (h : emsG ≠ []) :
    (resolve meta emsG trainG roadG).event_type = "ems_preempt" := by
  rw [resolve_ems _ _ _ _ h]

theorem resolve_event_train (meta : TLSMeta) (trainG : List Nat)
    (roadG : Option (List Nat)) (h : trainG ≠ []) :
    (resolve meta [] trainG roadG).event_type = "train_request" := by
  unfold resolve
  rw [if_neg (by simp), if_pos h]

/-- C2: every emergency vehicle within `EMS_DIST` of its next TLS has its
approach link green in the state emitted for that TLS this tick, and no rail
link of that TLS is green there.  The theorem quantifies over every such
vehicle at once, so when several EMS vehicles claim the same TLS on different
links, all their links are green simultaneously in the same vector. -/
theorem C2_ems_priority_bound
    (tm : List (String × TLSMeta)) (vehicles : List Vehicle) (L : Ledger)
    (v : Vehicle) (tls : String) (link : Nat) (d : Rat) (meta : TLSMeta)
    (hv : v ∈ vehicles) (ht : v.vtype = "emergency")
    (hn : v.nextTLS = some (tls, link, d)) (hd : d ≤ EMS_DIST)
    (hmeta : assocGet tm tls = some meta)
    (hlink : link < meta.n) (hrail : link ∉ meta.rail_idxs) :
    ∃ dec, assocGet (tick tm vehicles L).decisions tls = some dec ∧
      dec.state[link]? = some 'G' ∧
      ∀ j ∈ meta.rail_idxs, ¬ dec.state[j]? = some 'G' := by
  have hclaim : link ∈ emsGreenAt vehicles tls :=
    emsGreenAt_of_claim vehicles v tls link d hv ht hn hd
  have hne : emsGreenAt vehicles tls ≠ [] := by
    intro h0
    rw [h0] at hclaim
    exact List.not_mem_nil _ hclaim
  have htch := mem_touched_of_ems tm vehicles L tls hne
  have hget := tick_decisions_get tm vehicles L tls meta hmeta htch
  rw [resolve_ems _ _ _ _ hne] at hget
  refine ⟨_, hget, ?_, ?_⟩
  · show (build_state meta.n (emsGreenAt vehicles tls)
      meta.rail_idxs)[link]? = some 'G'
    rw [build_state_getElem, if_pos hlink, if_neg hrail, if_pos hclaim]
  · intro j hj
    show ¬ (build_state meta.n (emsGreenAt vehicles tls)
      meta.rail_idxs)[j]? = some 'G'
    rw [build_state_getElem]
    by_cases hjn : j < meta.n
    · rw [if_pos hjn, if_pos hj]
      simp
    · rw [if_neg hjn]
      simp

/-- C2 witness: the scenario's emergency vehicle 50 m from crossing "A" on
road link 1. -/
theorem C2_ems_priority_bound_witness :
    (⟨"e1", "emergency", some ("A", 1, 50)⟩ : Vehicle) ∈ scenVehicles 100 ∧
    (50 : Rat) ≤ EMS_DIST ∧ assocGet scenTM "A" = some metaA ∧
    1 < metaA.n ∧ 1 ∉ metaA.rail_idxs ∧
    (∃ dec, assocGet (tick scenTM (scenVehicles 100) []).decisions "A" =
        some dec ∧
      dec.state[1]? = some 'G' ∧
      ∀ j ∈ metaA.rail_idxs, ¬ dec.state[j]? = some 'G') :=
  ⟨by decide, by decide, by decide, by decide, by decide,
    C2_ems_priority_bound scenTM (scenVehicles 100) []
      ⟨"e1", "emergency", some ("A", 1, 50)⟩ "A" 1 50 metaA
      (by decide) (by decide) (by decide) (by decide) (by decide)
      (by decide) (by decide)⟩

/-- C4: a TLS with both an EMS claim and a train-green request in the same
tick always resolves to EMS: final greens are exactly the EMS link set (so
the train's link is excluded even after a safety release), the forced-red set
is the whole rail group, and the decision is tagged ems_preempt. -/
theorem C4_ems_overrides_train
    (tm : List (String × TLSMeta)) (vehicles : List Vehicle) (L : Ledger)
    (tls : String) (meta : TLSMeta)
    (hmeta : assocGet tm tls = some meta)
    (hE : emsGreenAt vehicles tls ≠ [])
    (hT : trainGreenAt (tick tm vehicles L).train.train_green tls ≠ []) :
    ∃ dec, assocGet (tick tm vehicles L).decisions tls = some dec ∧
      dec.greens = emsGreenAt vehicles tls ∧
      dec.force_red = meta.rail_idxs ∧
      dec.event_type = "ems_preempt" := by
  have htch := mem_touched_of_ems tm vehicles L tls hE
  have hget := tick_decisions_get tm vehicles L tls meta hmeta htch
  rw [resolve_ems _ _ _ _ hE] at hget
  exact ⟨_, hget, rfl, rfl, rfl⟩

/-- C4 witness: the scenario tick in which the train's hold budget is already
exhausted, so the released train requests green while EMS holds its claim. -/
theorem C4_ems_overrides_train_witness :
    assocGet scenTM "A" = some metaA ∧
    emsGreenAt (scenVehicles 100) "A" ≠ [] ∧
    trainGreenAt (tick scenTM (scenVehicles 100)
      [(("A", "t1"), 0)]).train.train_green "A" ≠ [] ∧
    (∃ dec, assocGet (tick scenTM (scenVehicles 100)
        [(("A", "t1"), 0)]).decisions "A" = some dec ∧
      dec.greens = emsGreenAt (scenVehicles 100) "A" ∧
      dec.force_red = metaA.rail_idxs ∧
      dec.event_type = "ems_preempt") :=
  ⟨by decide, by decide, by decide,
    C4_ems_overrides_train scenTM (scenVehicles 100) [(("A", "t1"), 0)] "A"
      metaA (by decide) (by decide) (by decide)⟩

/-- C7: a crossing TLS with no EMS claim and no train inside the warn
distance this tick receives the road-fallback decision: its entire road group
green, empty forced-red set, tag road_keep_green, and no rail link green. -/
theorem C7_anti_starvation_fallback
    (tm : List (String × TLSMeta)) (vehicles : List Vehicle) (L : Ledger)
    (tls : String) (meta : TLSMeta)
    (hmeta : assocGet tm tls = some meta)
    (hcross : meta.is_crossing = true)
    (hdisj : ∀ i, i ∈ meta.rail_idxs → i ∉ meta.road_idxs)
    (hE : emsGreenAt vehicles tls = [])
    (hno : ∀ v ∈ vehicles, v.vtype = "train" →
      ∀ l d, v.nextTLS = some (tls, l, d) → ¬ d < TRAIN_WARN_DIST) :
    ∃ dec, assocGet (tick tm vehicles L).decisions tls = some dec ∧
      dec.greens = meta.road_idxs ∧ dec.force_red = [] ∧
      dec.event_type = "road_keep_green" ∧
      ∀ j ∈ meta.rail_idxs, ¬ dec.state[j]? = some 'G' := by
  have hblocked : blockedAt vehicles tls = false := by
    simp [blockedAt, hE]
  have hnear : tls ∉ (trainPass tm (blockedAt vehicles) vehicles
      L).train_near := by
    intro hmem
    obtain ⟨v, hv, hvt, l, d, mv, hnx, _, _, hd⟩ :=
      trainPass_near_origin tm (blockedAt vehicles) vehicles L tls hmem
    exact hno v hv hvt l d hnx hd
  have hT : trainGreenAt (tick tm vehicles L).train.train_green tls = [] := by
    by_contra hT
    obtain ⟨l, hl⟩ := List.exists_mem_of_ne_nil _ hT
    have hlmem := (mem_trainGreenAt _ tls l).mp hl
    exact hnear (trainPass_green_near tm (blockedAt vehicles) vehicles L
      (tls, l) hlmem)
  have hroad : assocGet (tick tm vehicles L).roadGreen tls =
      some meta.road_idxs :=
    crg_get_some tm (blockedAt vehicles) _ tls meta hmeta hcross hblocked
      hnear
  have htch := mem_touched_of_road tm vehicles L tls meta.road_idxs hroad
  have hget := tick_decisions_get tm vehicles L tls meta hmeta htch
  rw [hE, hT, hroad, resolve_road] at hget
  refine ⟨_, hget, rfl, rfl, rfl, ?_⟩
  intro j hj
  show ¬ (build_state meta.n meta.road_idxs [])[j]? = some 'G'
  rw [build_state_getElem]
  by_cases hjn : j < meta.n
  · rw [if_pos hjn]
    simp only [List.not_mem_nil, if_false]
    rw [if_neg (hdisj j hj)]
    simp
  · rw [if_neg hjn]
    simp

/-- C7 witness: the scenario crossing with no vehicles at all. -/
theorem C7_anti_starvation_fallback_witness :
    assocGet scenTM "A" = some metaA ∧ metaA.is_crossing = true ∧
    (∀ i, i ∈ metaA.rail_idxs → i ∉ metaA.road_idxs) ∧
    emsGreenAt [] "A" = [] ∧
    (∃ dec, assocGet (tick scenTM [] []).decisions "A" = some dec ∧
      dec.greens = metaA.road_idxs ∧ dec.force_red = [] ∧
      dec.event_type = "road_keep_green" ∧
      ∀ j ∈ metaA.rail_idxs, ¬ dec.state[j]? = some 'G') :=
  ⟨by decide, by decide, by decide, by decide,
    C7_anti_starvation_fallback scenTM [] [] "A" metaA (by decide)
      (by decide) (by decide) (by decide)
      (by intro v hv; simp at hv)⟩

/-- C10: every decision emitted by a tick carries a policy tag among
ems_preempt, train_request and road_keep_green; the fourth tag "other" is
unreachable because the touched set is exactly the union of the three green
maps. -/
theorem C10_no_other_tag (tm : List (String × TLSMeta))
    (vehicles : List Vehicle) (L : Ledger) :
    ∀ p ∈ (tick tm vehicles L).decisions,
      p.2.event_type = "ems_preempt" ∨ p.2.event_type = "train_request" ∨
      p.2.event_type = "road_keep_green" := by
  intro p hp
  obtain ⟨meta, htch, hmeta, hdec⟩ := mem_decisions_inv tm vehicles L p hp
  by_cases hE : emsGreenAt vehicles p.1 ≠ []
  · left
    rw [hdec]
    exact resolve_event_ems meta _ _ _ hE
  · push_neg at hE
    by_cases hT : trainGreenAt (tick tm vehicles L).train.train_green p.1 ≠ []
    · right; left
      rw [hdec, hE]
      exact resolve_event_train meta _ _ hT
    · push_neg at hT
      rcases mem_touched_cases tm vehicles L p.1 htch with h1 | h2 | ⟨r, hr⟩
      · exact absurd h1 (by simp [hE])
      · exact absurd h2 (by simp [hT])
      · right; right
        rw [hdec, hE, hT, hr, resolve_road]

/-- C10 witness: the EMS-preempt decision of the scenario tick is one of the
emitted records, and its tag is among the three. -/
theorem C10_no_other_tag_witness :
    ("A", emsDec) ∈ (tick scenTM (scenVehicles 100) []).decisions ∧
    (("A", emsDec).2.event_type = "ems_preempt" ∨
      ("A", emsDec).2.event_type = "train_request" ∨
      ("A", emsDec).2.event_type = "road_keep_green") :=
  ⟨by decide, C10_no_other_tag scenTM (scenVehicles 100) [] ("A", emsDec)
    (by decide)⟩

theorem isHoldDirective_slowBand (x : String) (d : Rat) :
    isHoldDirective [(x, slowBand d)] = true := by
  unfold slowBand
  split
  · rfl
  · split
    · rfl
    · rfl

theorem consecHolds_le (tm : List (String × TLSMeta))
    (blocked : String → Bool) (vid tls : String) (link : Nat) :
    ∀ (ds : List Rat) (L : Ledger),
      consecHolds tm blocked vid tls link ds L ≤ ledgerGet L (tls, vid)
  | [], L => Nat.zero_le _
  | d :: ds, L => by
    rw [consecHolds]
    rcases trainStep_char tm blocked ⟨L, [], [], []⟩
      ⟨vid, "train", some (tls, link, d)⟩ with heq |
      ⟨tls', link', dist', meta, hv, hnx, hmt, hc, hcase⟩
    · rw [heq]
      simp only [isHoldDirective]
      exact Nat.zero_le _
    · have hinj : tls = tls' ∧ link = link' ∧ d = dist' := by
        have h0 : some (tls, link, d) = some (tls', link', dist') := hnx
        have h1 := Option.some.inj h0
        have h2 := Prod.mk.inj h1
        have h3 := Prod.mk.inj h2.2
        exact ⟨h2.1, h3.1, h3.2⟩
      obtain ⟨ht1, ht2, ht3⟩ := hinj
      subst ht1; subst ht2; subst ht3
      rcases hcase with ⟨hw, hb, hl, heq⟩ | ⟨hw, hb, hz, heq⟩ |
        ⟨hw, hb, heq⟩ | ⟨hw, heq⟩
      · rw [heq]
        have hdir : isHoldDirective
            (([] : List (String × Directive)) ++ [(vid, slowBand d)]) =
            true := by
          rw [List.nil_append]
          exact isHoldDirective_slowBand vid d
        rw [if_pos hdir]
        have hIH := consecHolds_le tm blocked vid tls link ds
          (ledgerSet L (tls, vid) (ledgerGet L (tls, vid) - 1))
        rw [ledgerGet_ledgerSet_self] at hIH
        have hpos : 0 < ledgerGet L (tls, vid) := hl
        have hgoal : consecHolds tm blocked vid tls link ds
            (ledgerSet L (tls, vid) (ledgerGet L (tls, vid) - 1)) + 1 ≤
            ledgerGet L (tls, vid) := by omega
        exact hgoal
      · rw [heq]
        simp only [List.nil_append, isHoldDirective]
        exact Nat.zero_le _
      · rw [heq]
        simp only [List.nil_append, isHoldDirective]
        exact Nat.zero_le _
      · rw [heq]
        simp only [isHoldDirective]
        exact Nat.zero_le _

/-- C3: for every (tls, train) pair, starting from any reachable ledger (one
whose remaining budget does not exceed the maximum, the absent entry counting
as the maximum), the number of consecutive ticks on which the engine issues a
slowdown directive to that train without releasing it never exceeds
TRAIN_HOLD_MAX = 12: each held tick decrements the budget, the absent entry
starts at the maximum, and at zero the release branch fires instead. -/
theorem C3_bounded_holds (tm : List (String × TLSMeta))
    (blocked : String → Bool) (vid tls : String) (link : Nat)
    (ds : List Rat) (L : Ledger)
    (hL : ledgerGet L (tls, vid) ≤ TRAIN_HOLD_MAX) :
    consecHolds tm blocked vid tls link ds L ≤ TRAIN_HOLD_MAX :=
  le_trans (consecHolds_le tm blocked vid tls link ds L) hL

/-- C3 witness: the scenario train held at the EMS-blocked crossing for 15
offered ticks still accumulates at most 12 consecutive holds, starting from
the empty ledger whose default budget is the maximum. -/
theorem C3_bounded_holds_witness :
    ledgerGet [] ("A", "t1") ≤ TRAIN_HOLD_MAX ∧
    consecHolds scenTM (blockedAt (scenVehicles 100)) "t1" "A" 0
      (List.replicate 15 (100 : Rat)) [] ≤ TRAIN_HOLD_MAX :=
  ⟨by decide,
    C3_bounded_holds scenTM (blockedAt (scenVehicles 100)) "t1" "A" 0
      (List.replicate 15 (100 : Rat)) [] (by decide)⟩

/-- C6 counterexample: on the tick where the (A, t1) budget is zero the train
is released and granted a train-green request, yet the ledger entry survives
the same tick's prune (the train still reports a next TLS), contradicting the
claim that the entry is removed within that same tick. -/
theorem C6_counterexample :
    ("A", 0) ∈ (tick scenTM (scenVehicles 100)
      [(("A", "t1"), 0)]).train.train_green ∧
    (tick scenTM (scenVehicles 100) [(("A", "t1"), 0)]).ledgerAfter =
      [(("A", "t1"), 0)] := by
  decide

/-- C6 (amended): once a pair's hold budget is zero, within that same tick
the train is granted green — its link is appended to the train-green requests
and a release directive is issued — but the ledger entry is left in place at
zero rather than removed; while the entry remains at zero the hold branch can
never fire again for the pair, because holding requires a positive remaining
budget. -/
theorem C6_release_grants_green (tm : List (String × TLSMeta))
    (blocked : String → Bool) (st : TrainState) (v : Vehicle) (tls : String)
    (link : Nat) (d : Rat) (meta : TLSMeta)
    (hv : v.vtype = "train") (hnx : v.nextTLS = some (tls, link, d))
    (hmt : assocGet tm tls = some meta) (hc : meta.is_crossing = true)
    (hb : blocked tls = true) (hd : d < TRAIN_WARN_DIST)
    (hz : ledgerGet st.ledger (tls, v.vid) = 0) :
    trainStep tm blocked st v =
      { ledger := st.ledger,
        train_near := st.train_near ++ [tls],
        train_green := st.train_green ++ [(tls, link)],
        directives := st.directives ++ [(v.vid, Directive.release)] } := by
  unfold trainStep
  rw [if_pos hv, hnx]
  simp only [hmt]
  simp only [if_pos hc, if_pos hd, if_pos (And.intro hb hd)]
  rw [if_neg (by omega)]

/-- C6 witness: the scenario train with its budget exhausted at the
EMS-blocked crossing. -/
theorem C6_release_grants_green_witness :
    (⟨"t1", "train", some ("A", 0, 100)⟩ : Vehicle).vtype = "train" ∧
    blockedAt (scenVehicles 100) "A" = true ∧
    (100 : Rat) < TRAIN_WARN_DIST ∧
    ledgerGet [(("A", "t1"), 0)] ("A", "t1") = 0 ∧
    trainStep scenTM (blockedAt (scenVehicles 100))
      ⟨[(("A", "t1"), 0)], [], [], []⟩ ⟨"t1", "train", some ("A", 0, 100)⟩ =
      { ledger := [(("A", "t1"), 0)],
        train_near := [] ++ ["A"],
        train_green := [] ++ [("A", 0)],
        directives := [] ++ [("t1", Directive.release)] } :=
  ⟨by decide, by decide, by decide, by decide,
    C6_release_grants_green scenTM (blockedAt (scenVehicles 100))
      ⟨[(("A", "t1"), 0)], [], [], []⟩ ⟨"t1", "train", some ("A", 0, 100)⟩
      "A" 0 100 metaA (by decide) (by decide) (by decide) (by decide)
      (by decide) (by decide) (by decide)⟩

/-- C8 counterexample: a ledger entry tracking crossing "A" for train t1 is
kept by prune even though t1 now reports "B" — not "A" — as its next TLS; the
prune only checks that the train still has some upcoming TLS, so the claimed
removal of entries whose tracked TLS is no longer next is false. -/
theorem C8_counterexample :
    prune [(("A", "t1"), 5)] [⟨"t1", "train", some ("B", 0, (50 : Rat))⟩] =
      [(("A", "t1"), 5)] := by
  decide

/-- C8 (amended): prune removes exactly the entries whose train has vanished
or reports no upcoming TLS at all; every entry that survives the prune
belongs to a train that is still present and has some next TLS — which need
not be the tracked one. -/
theorem C8_prune_keeps_present_trains (L : Ledger)
    (vehicles : List Vehicle) (k : String × String) (b : Nat)
    (h : (k, b) ∈ prune L vehicles) :
    (k, b) ∈ L ∧ ∃ v ∈ vehicles, v.vid = k.2 ∧ v.nextTLS.isSome = true := by
  unfold prune at h
  rw [List.mem_filter] at h
  obtain ⟨hmem, hpred⟩ := h
  refine ⟨hmem, ?_⟩
  cases hfind : vehicles.find? (fun v => decide (v.vid = (k, b).1.2)) with
  | none =>
    rw [hfind] at hpred
    exact absurd hpred (by simp)
  | some v =>
    rw [hfind] at hpred
    have hv := List.mem_of_find?_eq_some hfind
    have hvid := List.find?_some hfind
    have hsome : v.nextTLS.isSome = true := hpred
    exact ⟨v, hv, of_decide_eq_true hvid, hsome⟩

/-- C8 witness: the retained entry of the counterexample tick indeed belongs
to a train that is still present with some next TLS. -/
theorem C8_prune_keeps_present_trains_witness :
    ((("A", "t1"), 5) ∈ prune [(("A", "t1"), 5)]
      [⟨"t1", "train", some ("B", 0, (50 : Rat))⟩]) ∧
    ((("A", "t1"), 5) ∈ ([(("A", "t1"), 5)] : Ledger) ∧
      ∃ v ∈ [(⟨"t1", "train", some ("B", 0, (50 : Rat))⟩ : Vehicle)],
        v.vid = ("A", "t1").2 ∧ v.nextTLS.isSome = true) :=
  ⟨by decide,
    C8_prune_keeps_present_trains [(("A", "t1"), 5)]
      [⟨"t1", "train", some ("B", 0, (50 : Rat))⟩] ("A", "t1") 5
      (by decide)⟩

/-- C9 counterexample: the classifier applied to an intersection with zero
controlled links raises nothing and silently returns the default-shaped
record (n = 0, empty link groups, not a crossing), contradicting the claimed
fail-fast configuration error. -/
theorem C9_counterexample :
    analyzeTls [] =
      { n := 0, rail_idxs := [], road_idxs := [], is_crossing := false } := by
  decide

/-- C9 (amended): the topology classification is total and silent: an
intersection reporting zero controlled links is classified into the default
record with n = 0, empty rail and road groups and is_crossing = false, and no
configuration error is reported before the control loop begins. -/
theorem C9_silent_default (edges : List String) (h : edges.length = 0) :
    analyzeTls edges =
      { n := 0, rail_idxs := [], road_idxs := [], is_crossing := false } := by
  have he : edges = [] := List.length_eq_zero.mp h
  subst he
  decide

/-- C9 witness: the zero-link intersection. -/
theorem C9_silent_default_witness :
    ([] : List String).length = 0 ∧
    analyzeTls [] =
      { n := 0, rail_idxs := [], road_idxs := [], is_crossing := false } :=
  ⟨rfl, C9_silent_default [] rfl⟩

/-! ### Scenario lemmas for the graduated hold / release run -/

theorem scen_ledgerGet (b0 : Nat) :
    ledgerGet [(("A", "t1"), b0)] ("A", "t1") = b0 := by
  simp [ledgerGet, assocGet]

theorem scen_trainStep_hold (d : Rat) (hd : d < TRAIN_WARN_DIST) (L : Ledger)
    (hpos : 0 < ledgerGet L ("A", "t1")) :
    trainStep scenTM (blockedAt (scenVehicles d)) ⟨L, [], [], []⟩
      ⟨"t1", "train", some ("A", 0, d)⟩ =
      { ledger := ledgerSet L ("A", "t1") (ledgerGet L ("A", "t1") - 1),
        train_near := ["A"], train_green := [],
        directives := [("t1", slowBand d)] } := by
  have hv : (⟨"t1", "train", some ("A", 0, d)⟩ : Vehicle).vtype = "train" :=
    rfl
  have hnx : (⟨"t1", "train", some ("A", 0, d)⟩ : Vehicle).nextTLS =
      some ("A", 0, d) := rfl
  have hmt : assocGet scenTM "A" = some metaA := rfl
  have hc : metaA.is_crossing = true := by decide
  have hb : blockedAt (scenVehicles d) "A" = true := rfl
  unfold trainStep
  rw [if_pos hv, hnx]
  simp only [hmt]
  simp only [if_pos hc, if_pos hd, if_pos (And.intro hb hd)]
  rw [if_pos hpos]
  rfl

theorem scen_trainStep_release (d : Rat) (hd : d < TRAIN_WARN_DIST)
    (L : Ledger) (hz : ledgerGet L ("A", "t1") = 0) :
    trainStep scenTM (blockedAt (scenVehicles d)) ⟨L, [], [], []⟩
      ⟨"t1", "train", some ("A", 0, d)⟩ =
      { ledger := L, train_near := ["A"], train_green := [("A", 0)],
        directives := [("t1", Directive.release)] } := by
  have hv : (⟨"t1", "train", some ("A", 0, d)⟩ : Vehicle).vtype = "train" :=
    rfl
  have hnx : (⟨"t1", "train", some ("A", 0, d)⟩ : Vehicle).nextTLS =
      some ("A", 0, d) := rfl
  have hmt : assocGet scenTM "A" = some metaA := rfl
  have hc : metaA.is_crossing = true := by decide
  have hb : blockedAt (scenVehicles d) "A" = true := rfl
  unfold trainStep
  rw [if_pos hv, hnx]
  simp only [hmt]
  simp only [if_pos hc, if_pos hd, if_pos (And.intro hb hd)]
  rw [if_neg (by omega)]
  rfl

theorem scen_trainPass_eq (d : Rat) (L : Ledger) :
    trainPass scenTM (blockedAt (scenVehicles d)) (scenVehicles d) L =
      trainStep scenTM (blockedAt (scenVehicles d)) ⟨L, [], [], []⟩
        ⟨"t1", "train", some ("A", 0, d)⟩ := rfl

theorem scen_tick_hold (d : Rat) (hd : d < TRAIN_WARN_DIST) (b0 : Nat)
    (hpos : 0 < b0) :
    tick scenTM (scenVehicles d) [(("A", "t1"), b0)] =
      { emsPairs := [("A", 1)],
        train := { ledger := [(("A", "t1"), b0 - 1)], train_near := ["A"],
                   train_green := [], directives := [("t1", slowBand d)] },
        roadGreen := [], touched := ["A"],
        decisions := [("A", emsDec)],
        ledgerAfter := [(("A", "t1"), b0 - 1)] } := by
  have hts : trainPass scenTM (blockedAt (scenVehicles d)) (scenVehicles d)
      [(("A", "t1"), b0)] =
      { ledger := [(("A", "t1"), b0 - 1)], train_near := ["A"],
        train_green := [], directives := [("t1", slowBand d)] } := by
    rw [scen_trainPass_eq,
      scen_trainStep_hold d hd _ (by rw [scen_ledgerGet]; exact hpos)]
    rw [scen_ledgerGet]
    simp [ledgerSet]
  simp only [tick]
  rw [hts]
  rfl

theorem scen_tick_init (d : Rat) (hd : d < TRAIN_WARN_DIST) :
    tick scenTM (scenVehicles d) [] =
      { emsPairs := [("A", 1)],
        train := { ledger := [(("A", "t1"), 11)], train_near := ["A"],
                   train_green := [], directives := [("t1", slowBand d)] },
        roadGreen := [], touched := ["A"],
        decisions := [("A", emsDec)],
        ledgerAfter := [(("A", "t1"), 11)] } := by
  have hts : trainPass scenTM (blockedAt (scenVehicles d)) (scenVehicles d)
      [] =
      { ledger := [(("A", "t1"), 11)], train_near := ["A"],
        train_green := [], directives := [("t1", slowBand d)] } := by
    rw [scen_trainPass_eq,
      scen_trainStep_hold d hd [] (by simp [ledgerGet, assocGet, TRAIN_HOLD_MAX])]
    simp [ledgerGet, assocGet, ledgerSet, TRAIN_HOLD_MAX]
  simp only [tick]
  rw [hts]
  rfl

theorem scen_tick_release (d : Rat) (hd : d < TRAIN_WARN_DIST) :
    tick scenTM (scenVehicles d) [(("A", "t1"), 0)] =
      { emsPairs := [("A", 1)],
        train := { ledger := [(("A", "t1"), 0)], train_near := ["A"],
                   train_green := [("A", 0)],
                   directives := [("t1", Directive.release)] },
        roadGreen := [], touched := ["A", "A"],
        decisions := [("A", emsDec), ("A", emsDec)],
        ledgerAfter := [(("A", "t1"), 0)] } := by
  have hts : trainPass scenTM (blockedAt (scenVehicles d)) (scenVehicles d)
      [(("A", "t1"), 0)] =
      { ledger := [(("A", "t1"), 0)], train_near := ["A"],
        train_green := [("A", 0)],
        directives := [("t1", Directive.release)] } := by
    rw [scen_trainPass_eq,
      scen_trainStep_release d hd _ (by rw [scen_ledgerGet])]
  simp only [tick]
  rw [hts]
  rfl

theorem scenTicks_phase :
    ∀ (ds : List Rat) (b0 : Nat),
      (∀ d ∈ ds, d < TRAIN_WARN_DIST) →
      ∀ (i : Nat) (r : TickResult) (d : Rat),
        (scenTicks ds [(("A", "t1"), b0)])[i]? = some r →
        ds[i]? = some d →
        ((i < b0 →
          r.train.directives = [("t1", slowBand d)] ∧
          r.train.train_green = [] ∧
          r.ledgerAfter = [(("A", "t1"), b0 - (i + 1))] ∧
          assocGet r.decisions "A" = some emsDec) ∧
        (b0 ≤ i →
          r.train.directives = [("t1", Directive.release)] ∧
          r.train.train_green = [("A", 0)] ∧
          r.ledgerAfter = [(("A", "t1"), 0)] ∧
          assocGet r.decisions "A" = some emsDec))
  | [], _, _, i, r, d, hr, _ => by
    simp [scenTicks] at hr
  | d0 :: ds, b0, hds, i, r, d, hr, hd => by
    have hd0 : d0 < TRAIN_WARN_DIST := hds d0 (List.mem_cons_self _ _)
    have hds' : ∀ x ∈ ds, x < TRAIN_WARN_DIST :=
      fun x hx => hds x (List.mem_cons_of_mem _ hx)
    rw [scenTicks] at hr
    cases i with
    | zero =>
      have hr0 : tick scenTM (scenVehicles d0) [(("A", "t1"), b0)] = r := by
        simpa using hr
      have hdd : d0 = d := by simpa using hd
      subst hdd
      cases b0 with
      | zero =>
        rw [scen_tick_release d0 hd0] at hr0
        subst hr0
        exact ⟨fun h0 => absurd h0 (by omega),
          fun _ => ⟨rfl, rfl, rfl, rfl⟩⟩
      | succ c =>
        rw [scen_tick_hold d0 hd0 (c + 1) (Nat.succ_pos c)] at hr0
        subst hr0
        refine ⟨fun _ => ⟨rfl, rfl, ?_, rfl⟩,
          fun hle => absurd hle (by omega)⟩
        simp
    | succ j =>
      have hr' : (scenTicks ds (tick scenTM (scenVehicles d0)
          [(("A", "t1"), b0)]).ledgerAfter)[j]? = some r := by
        simpa using hr
      have hd' : ds[j]? = some d := by simpa using hd
      cases b0 with
      | zero =>
        have hla : (tick scenTM (scenVehicles d0)
            [(("A", "t1"), 0)]).ledgerAfter = [(("A", "t1"), 0)] := by
          rw [scen_tick_release d0 hd0]
        rw [hla] at hr'
        have hIH := scenTicks_phase ds 0 hds' j r d hr' hd'
        exact ⟨fun h0 => absurd h0 (by omega),
          fun _ => hIH.2 (Nat.zero_le j)⟩
      | succ c =>
        have hla : (tick scenTM (scenVehicles d0)
            [(("A", "t1"), c + 1)]).ledgerAfter = [(("A", "t1"), c)] := by
          rw [scen_tick_hold d0 hd0 (c + 1) (Nat.succ_pos c)]
          rfl
        rw [hla] at hr'
        have hIH := scenTicks_phase ds c hds' j r d hr' hd'
        constructor
        · intro hlt
          have hjc : j < c := by omega
          have := hIH.1 hjc
          refine ⟨this.1, this.2.1, ?_, this.2.2.2⟩
          have : r.ledgerAfter = [(("A", "t1"), c - (j + 1))] := this.2.2.1
          rw [this]
          have : c - (j + 1) = c + 1 - (j + 1 + 1) := by omega
          rw [this]
        · intro hle
          have hjc : c ≤ j := by omega
          exact hIH.2 hjc

/-- C5 counterexample: in the concrete 13-tick run (train at distance 100 of
the EMS-blocked crossing, budget starting absent = 12), the 13th tick does
add the train's link to the train-green request set, yet the emitted state at
that link is still red — EMS preemption excludes it — refuting "so that the
link is green regardless of EMS state". -/
theorem C5_counterexample :
    ("A", 0) ∈ ((scenTicks (List.replicate 13 (100 : Rat)) []).getD 12
      default).train.train_green ∧
    ((assocGet ((scenTicks (List.replicate 13 (100 : Rat)) []).getD 12
      default).decisions "A").map (fun dec => dec.state[0]?)) =
      some (some 'r') := by
  decide

/-- C5 (amended): for a train that stays within the warn distance of the
EMS-blocked crossing with its hold budget starting absent (= 12): each of the
first 12 ticks issues the banded slowdown directive (near-zero target under
25 m, moderate under 70 m, mild beyond), decrements the budget (11 - i left
after tick i), and keeps the train's link out of every green set; the 13th
tick releases the train to free running and adds its link to the train-green
request set, but the state emitted that tick still keeps the link red,
because the EMS claim resets the greens to the EMS links and forces the rail
group red — the link turns green only on a tick without an EMS claim. -/
theorem C5_graduated_hold_then_release (ds : List Rat)
    (hds : ∀ d ∈ ds, d < TRAIN_WARN_DIST) (hlen : ds.length = 13) :
    (∀ i r d, i < 12 → (scenTicks ds [])[i]? = some r → ds[i]? = some d →
      r.train.directives = [("t1", slowBand d)] ∧
      r.train.train_green = [] ∧
      r.ledgerAfter = [(("A", "t1"), 11 - i)] ∧
      assocGet r.decisions "A" = some emsDec) ∧
    (∀ r, (scenTicks ds [])[12]? = some r →
      r.train.directives = [("t1", Directive.release)] ∧
      ("A", 0) ∈ r.train.train_green ∧
      ∃ dec, assocGet r.decisions "A" = some dec ∧
        dec.state[0]? = some 'r') := by
  cases ds with
  | nil => simp at hlen
  | cons d0 ds' =>
    have hd0 : d0 < TRAIN_WARN_DIST := hds d0 (List.mem_cons_self _ _)
    have hds' : ∀ x ∈ ds', x < TRAIN_WARN_DIST :=
      fun x hx => hds x (List.mem_cons_of_mem _ hx)
    have hlen' : ds'.length = 12 := by simpa using hlen
    have hsc : scenTicks (d0 :: ds') [] =
        tick scenTM (scenVehicles d0) [] ::
          scenTicks ds' (tick scenTM (scenVehicles d0) []).ledgerAfter := by
      rw [scenTicks]
    have hla : (tick scenTM (scenVehicles d0) []).ledgerAfter =
        [(("A", "t1"), 11)] := by
      rw [scen_tick_init d0 hd0]
    constructor
    · intro i r d hi hr hd
      cases i with
      | zero =>
        rw [hsc] at hr
        have hr0 : tick scenTM (scenVehicles d0) [] = r := by simpa using hr
        have hdd : d0 = d := by simpa using hd
        subst hdd
        rw [scen_tick_init d0 hd0] at hr0
        subst hr0
        exact ⟨rfl, rfl, rfl, rfl⟩
      | succ j =>
        rw [hsc] at hr
        have hr1 : (scenTicks ds' (tick scenTM (scenVehicles d0)
            []).ledgerAfter)[j]? = some r := by simpa using hr
        rw [hla] at hr1
        have hd' : ds'[j]? = some d := by simpa using hd
        have hIH := scenTicks_phase ds' 11 hds' j r d hr1 hd'
        have hjlt : j < 11 := by omega
        have hfacts := hIH.1 hjlt
        exact ⟨hfacts.1, hfacts.2.1, hfacts.2.2.1, hfacts.2.2.2⟩
    · intro r hr
      rw [hsc] at hr
      have hr1 : (scenTicks ds' (tick scenTM (scenVehicles d0)
          []).ledgerAfter)[11]? = some r := by simpa using hr
      rw [hla] at hr1
      obtain ⟨d11, hd11⟩ : ∃ x, ds'[11]? = some x := by
        cases hx : ds'[11]? with
        | none =>
          rw [List.getElem?_eq_none_iff] at hx
          omega
        | some x => exact ⟨x, rfl⟩
      have hIH := scenTicks_phase ds' 11 hds' 11 r d11 hr1 hd11
      have hrel := hIH.2 (le_refl 11)
      refine ⟨hrel.1, ?_, ?_⟩
      · rw [hrel.2.1]
        simp
      · exact ⟨emsDec, hrel.2.2.2, by decide⟩

/-- C5 witness: the constant run at distance 100 (the spec scenario). -/
theorem C5_graduated_hold_then_release_witness :
    (∀ d ∈ List.replicate 13 (100 : Rat), d < TRAIN_WARN_DIST) ∧
    (List.replicate 13 (100 : Rat)).length = 13 ∧
    ((∀ i r d, i < 12 →
        (scenTicks (List.replicate 13 (100 : Rat)) [])[i]? = some r →
        (List.replicate 13 (100 : Rat))[i]? = some d →
        r.train.directives = [("t1", slowBand d)] ∧
        r.train.train_green = [] ∧
        r.ledgerAfter = [(("A", "t1"), 11 - i)] ∧
        assocGet r.decisions "A" = some emsDec) ∧
      (∀ r, (scenTicks (List.replicate 13 (100 : Rat)) [])[12]? = some r →
        r.train.directives = [("t1", Directive.release)] ∧
        ("A", 0) ∈ r.train.train_green ∧
        ∃ dec, assocGet r.decisions "A" = some dec ∧
          dec.state[0]? = some 'r')) :=
  ⟨by decide, by decide,
    C5_graduated_hold_then_release (List.replicate 13 (100 : Rat))
      (by decide) (by decide)⟩
